import Mathlib

/-!
# Verification of the storage websocket client (`neuromation/api/storage.py`)

Shallow embedding of the bulk file-transfer core: the binary frame codec
(`WSStorageClient.send` / `WSStorageClient._unpack`), the request/response
correlator (`async_request`, `sync_request`, `run`), the upload/download
chunking loops, the directory-walk ordering, and the remote glob engine.

Bytes are modelled as `List Nat`; machine byte values are the naturals
below 256.  The header serialization performed by the external `cbor`
library is modelled at the byte level for the value shapes the client
actually sends and receives (maps from text keys to unsigned integers,
text strings and booleans); text is serialized by Unicode code point,
which coincides with the real UTF-8 bytes on the ASCII strings the
protocol uses.
-/

namespace WSProto

/-- `WS_READ_SIZE = 2 ** 20` from the source. -/
def WS_READ_SIZE : Nat := 2 ^ 20

/-- `MAX_WS_READ_SIZE = 16 * 2 ** 20` from the source. -/
def MAX_WS_READ_SIZE : Nat := 16 * 2 ^ 20

/-- `MAX_WS_MESSAGE_SIZE = MAX_WS_READ_SIZE + 2 ** 16 + 100` from the source. -/
def MAX_WS_MESSAGE_SIZE : Nat := MAX_WS_READ_SIZE + 2 ^ 16 + 100

/-- `aiohttp.WSCloseCode.UNSUPPORTED_DATA`. -/
def UNSUPPORTED_DATA : Nat := 1003

/-- `aiohttp.WSCloseCode.MESSAGE_TOO_BIG`. -/
def MESSAGE_TOO_BIG : Nat := 1009

/-- A header value: the Python dicts passed to `cbor.dumps` by this client
hold strings (`op`, `path`, error texts), non-negative integers
(`id`, `rid`, `offset`, `size`) and booleans (`parents`, `exist_ok`). -/
inductive HVal where
  | int (n : Nat)
  | str (s : String)
  | bool (b : Bool)
  deriving DecidableEq, Repr

/-- A header map: an insertion-ordered association list, as a Python dict. -/
abbrev Header := List (String × HVal)

/-- `payload[k]` as an `Option` (a Python dict lookup; `none` is `KeyError`). -/
def hget (h : Header) (k : String) : Option HVal :=
  match h with
  | [] => none
  | (k', v) :: t => if k' = k then some v else hget t k

/-- Python `==` on the modelled values: `bool` is an `int` subtype in
Python, so `True == 1` and `False == 0`; values of unrelated types are
unequal. -/
def pyEq : HVal → HVal → Bool
  | .int a, .int b => a == b
  | .str a, .str b => a == b
  | .bool a, .bool b => a == b
  | .int a, .bool b => a == (if b then 1 else 0)
  | .bool a, .int b => (if a then 1 else 0) == b
  | _, _ => false

/-- Code points of a string; equals its UTF-8 bytes for ASCII text. -/
def strBytes (s : String) : List Nat :=
  s.data.map Char.toNat

/-- CBOR head: major type and argument, canonical (shortest) form, as
emitted by `cbor.dumps` for arguments below `2 ^ 64`. -/
def encodeHead (major n : Nat) : List Nat :=
  if n < 24 then [32 * major + n]
  else if n < 2 ^ 8 then [32 * major + 24, n]
  else if n < 2 ^ 16 then [32 * major + 25, n / 2 ^ 8, n % 2 ^ 8]
  else if n < 2 ^ 32 then
    [32 * major + 26, n / 2 ^ 24 % 2 ^ 8, n / 2 ^ 16 % 2 ^ 8, n / 2 ^ 8 % 2 ^ 8, n % 2 ^ 8]
  else
    [32 * major + 27,
      n / 2 ^ 56 % 2 ^ 8, n / 2 ^ 48 % 2 ^ 8, n / 2 ^ 40 % 2 ^ 8, n / 2 ^ 32 % 2 ^ 8,
      n / 2 ^ 24 % 2 ^ 8, n / 2 ^ 16 % 2 ^ 8, n / 2 ^ 8 % 2 ^ 8, n % 2 ^ 8]

/-- CBOR head parser: returns `(major, argument, remaining bytes)`. -/
def decodeHead : List Nat → Option (Nat × Nat × List Nat)
  | [] => none
  | b :: rest =>
    let major := b / 32
    let info := b % 32
    if info < 24 then some (major, info, rest)
    else if info = 24 then
      match rest with
      | x :: r => some (major, x, r)
      | [] => none
    else if info = 25 then
      match rest with
      | x1 :: x2 :: r => some (major, x1 * 2 ^ 8 + x2, r)
      | _ => none
    else if info = 26 then
      match rest with
      | x1 :: x2 :: x3 :: x4 :: r =>
        some (major, x1 * 2 ^ 24 + x2 * 2 ^ 16 + x3 * 2 ^ 8 + x4, r)
      | _ => none
    else if info = 27 then
      match rest with
      | x1 :: x2 :: x3 :: x4 :: x5 :: x6 :: x7 :: x8 :: r =>
        some (major,
          x1 * 2 ^ 56 + x2 * 2 ^ 48 + x3 * 2 ^ 40 + x4 * 2 ^ 32 +
          x5 * 2 ^ 24 + x6 * 2 ^ 16 + x7 * 2 ^ 8 + x8, r)
      | _ => none
    else none

/-- CBOR text string (major type 3): head with byte length, then the bytes. -/
def encodeStr (s : String) : List Nat :=
  encodeHead 3 (strBytes s).length ++ strBytes s

/-- CBOR encoding of one header value: unsigned int (major 0),
text string (major 3), or the simple values `false`/`true` (`0xf4`/`0xf5`). -/
def encodeHVal : HVal → List Nat
  | .int n => encodeHead 0 n
  | .str s => encodeStr s
  | .bool b => [if b then 245 else 244]

/-- CBOR decoding of one value of the shapes this protocol uses. -/
def decodeHVal (l : List Nat) : Option (HVal × List Nat) :=
  match decodeHead l with
  | some (0, n, r) => some (.int n, r)
  | some (3, len, r) =>
    if len ≤ r.length then
      some (.str ⟨(r.take len).map Char.ofNat⟩, r.drop len)
    else none
  | some (7, 20, r) => some (.bool false, r)
  | some (7, 21, r) => some (.bool true, r)
  | _ => none

/-- Encoding of the key/value pairs of a map body, in insertion order. -/
def encodePairs : Header → List Nat
  | [] => []
  | (k, v) :: t => encodeStr k ++ encodeHVal v ++ encodePairs t

/-- Parse `n` key/value pairs of a map body. -/
def decodePairs : Nat → List Nat → Option (Header × List Nat)
  | 0, l => some ([], l)
  | n + 1, l =>
    match decodeHVal l with
    | some (.str k, r) =>
      match decodeHVal r with
      | some (v, r') =>
        match decodePairs n r' with
        | some (h, rest) => some ((k, v) :: h, rest)
        | none => none
      | none => none
    | _ => none

/-- `cbor.dumps` of a header dict: a CBOR map (major type 5). -/
def cborDumps (h : Header) : List Nat :=
  encodeHead 5 h.length ++ encodePairs h

/-- `cbor.loads` of a header region: one CBOR map consuming the whole input. -/
def cborLoads (l : List Nat) : Option Header :=
  match decodeHead l with
  | some (5, n, r) =>
    match decodePairs n r with
    | some (h, []) => some h
    | _ => none
  | _ => none

/-- `struct.pack("!I", n)`: 4 big-endian bytes (`struct` raises for
`n ≥ 2 ^ 32`; all users stay below that bound). -/
def packUInt32 (n : Nat) : List Nat :=
  [n / 2 ^ 24 % 2 ^ 8, n / 2 ^ 16 % 2 ^ 8, n / 2 ^ 8 % 2 ^ 8, n % 2 ^ 8]

/-- `struct.unpack("!I", resp[:4])`: read the 4-byte big-endian prefix. -/
def unpackUInt32 (l : List Nat) : Nat :=
  match l with
  | x1 :: x2 :: x3 :: x4 :: _ => x1 * 2 ^ 24 + x2 * 2 ^ 16 + x3 * 2 ^ 8 + x4
  | _ => 0

/-- The frame built by `send`/`async_request` (line 110):
`struct.pack("!I", len(header) + 4) + header + data`. -/
def encodeFrame (h : Header) (data : List Nat) : List Nat :=
  packUInt32 ((cborDumps h).length + 4) ++ cborDumps h ++ data

/-- The failure modes of `WSStorageClient._unpack`. -/
inductive UnpackErr where
  | tooShort
  | tooLarge
  | cborError
  | keyError (k : String)
  | remoteOSError (errnoVal msg : HVal)
  | remoteError (msg : HVal)
  | unexpectedResponse (h : Header)
  deriving DecidableEq, Repr

/-- The close code `_unpack` sends before raising, when it closes at all:
`UNSUPPORTED_DATA` for a too-short buffer, `MESSAGE_TOO_BIG` for a
too-large one. -/
def closeCodeOf : UnpackErr → Option Nat
  | .tooShort => some UNSUPPORTED_DATA
  | .tooLarge => some MESSAGE_TOO_BIG
  | _ => none

/-- `WSStorageClient._unpack` (lines 141-167): size checks, 4-byte length
prefix, CBOR header region `resp[4:hsize]`, payload `resp[hsize:]`, then
dispatch on the header's `op` (only `ACK` returns; `ERROR` raises the
remote error; anything else is an unexpected response). -/
def unpack (resp : List Nat) : Except UnpackErr (Header × List Nat) :=
  if resp.length < 4 then .error .tooShort
  else if resp.length > MAX_WS_MESSAGE_SIZE then .error .tooLarge
  else
    let hsize := unpackUInt32 resp
    match cborLoads ((resp.drop 4).take (hsize - 4)) with
    | none => .error .cborError
    | some h =>
      match hget h "op" with
      | none => .error (.keyError "op")
      | some op =>
        if pyEq op (.str "ACK") then .ok (h, resp.drop hsize)
        else if pyEq op (.str "ERROR") then
          match hget h "errno" with
          | some e =>
            match hget h "error" with
            | some m => .error (.remoteOSError e m)
            | none => .error (.keyError "error")
          | none =>
            match hget h "error" with
            | some m => .error (.remoteError m)
            | none => .error (.keyError "error")
        else .error (.unexpectedResponse h)

/-- The failure modes of `sync_request` once a frame has been received:
a failure inside `receive`/`_unpack`, a missing `rop`/`rid` key, or the
two explicit `RuntimeError`s for a mismatched response id or op. -/
inductive SyncErr where
  | unpackErr (e : UnpackErr)
  | keyError (k : String)
  | unexpectedId (respid : HVal) (reqid : Nat)
  | unexpectedOp (rop : HVal) (op : String)
  deriving DecidableEq, Repr

/-- `WSStorageClient.sync_request` (lines 169-188) after the frame for its
single in-flight request arrives: unpack the frame, read `rop` and `rid`
from the response header, fail unless `rid` equals the request id, fail
unless `rop` equals the request op, and only then return the pair. -/
def syncRequestCheck (op : String) (reqid : Nat) (resp : List Nat) :
    Except SyncErr (Header × List Nat) :=
  match unpack resp with
  | .error e => .error (.unpackErr e)
  | .ok (h, data) =>
    match hget h "rop" with
    | none => .error (.keyError "rop")
    | some rop =>
      match hget h "rid" with
      | none => .error (.keyError "rid")
      | some respid =>
        if ¬ pyEq respid (.int reqid) then .error (.unexpectedId respid reqid)
        else if ¬ pyEq rop (.str op) then .error (.unexpectedOp rop op)
        else .ok (h, data)

/-- An incoming websocket message, as dispatched on by `run()` and
`receive`: a binary frame, a transport error, or any other message type. -/
inductive WSMsg where
  | binary (data : List Nat)
  | error
  | other

/-- A registered async handler.  Its only effect visible to `run()` is the
list of further `(request id, handler)` registrations it performs by
calling `async_request` — for this client, the recursive CREATE/WRITE and
MKDIRS fan-out. -/
inductive Handler where
  | mk : (Header → List Nat → List (Nat × Handler)) → Handler

/-- Invoke a handler on a response header and payload, obtaining the
registrations it performs. -/
def Handler.run : Handler → Header → List Nat → List (Nat × Handler)
  | .mk f => f

/-- `self._handlers.pop(rid)`: remove and return the entry keyed `rid` of
the insertion-ordered dict, or `none` (`KeyError`). -/
def popKey : List (Nat × Handler) → Nat → Option (Handler × List (Nat × Handler))
  | [], _ => none
  | (k, v) :: t, rid =>
    if k = rid then some (v, t)
    else
      match popKey t rid with
      | some (f, t') => some (f, (k, v) :: t')
      | none => none

/-- `self._handlers[reqid] = handler`: dict assignment (replace in place or
append at the end). -/
def setKey : List (Nat × Handler) → Nat → Handler → List (Nat × Handler)
  | [], k, f => [(k, f)]
  | (k', v) :: t, k, f =>
    if k' = k then (k', f) :: t else (k', v) :: setKey t k f

/-- Perform a handler's registrations in order. -/
def insertAll (m : List (Nat × Handler)) : List (Nat × Handler) → List (Nat × Handler)
  | [] => m
  | (k, f) :: t => insertAll (setKey m k f) t

/-- A Python dict keyed by ints also finds `True`/`False` (which hash and
compare equal to `1`/`0`); string keys miss. -/
def ridToKey : HVal → Option Nat
  | .int n => some n
  | .bool b => some (if b then 1 else 0)
  | .str _ => none

/-- The ways `run()` (lines 190-202) aborts. -/
inductive RunErr where
  | unpackErr (e : UnpackErr)
  | keyErrorRid
  | popKeyError (rid : HVal)
  | wsError
  | unsupportedMsgType

/-- `WSStorageClient.run` (lines 190-202): for each incoming message, unpack
binary frames, pop the handler registered for the response's `rid`
(`KeyError` aborts if absent), invoke it (performing its registrations),
and break once the handler map is empty.  Returns the dispatch trace
(`rid`, header, payload per invocation), the final map, and the messages
left unread after the break. -/
def runLoop : List WSMsg → List (Nat × Handler) →
    Except RunErr (List (Nat × Header × List Nat) × List (Nat × Handler) × List WSMsg)
  | [], pend => .ok ([], pend, [])
  | .binary d :: rest, pend =>
    match unpack d with
    | .error e => .error (.unpackErr e)
    | .ok (h, data) =>
      match hget h "rid" with
      | none => .error .keyErrorRid
      | some rv =>
        match ridToKey rv with
        | none => .error (.popKeyError rv)
        | some rid =>
          match popKey pend rid with
          | none => .error (.popKeyError rv)
          | some (f, pend') =>
            let pend'' := insertAll pend' (f.run h data)
            if pend''.isEmpty then .ok ([(rid, h, data)], pend'', rest)
            else
              match runLoop rest pend'' with
              | .ok (tr, fin, rem) => .ok ((rid, h, data) :: tr, fin, rem)
              | .error e => .error e
  | .error :: _, _ => .error .wsError
  | .other :: _, _ => .error .unsupportedMsgType

/-- Well-formedness of one header value: integers stay below `2 ^ 64`
(larger ones would be CBOR bignums) and string byte lengths do too. -/
def hvalWF : HVal → Prop
  | .int n => n < 2 ^ 64
  | .str s => (strBytes s).length < 2 ^ 64
  | .bool _ => True

instance : DecidablePred hvalWF := fun v => by
  cases v <;> simp [hvalWF] <;> infer_instance

/-- Well-formedness of a header map: distinct keys (it comes from a
Python dict), a representable pair count, and well-formed keys and values. -/
def HeaderWF (h : Header) : Prop :=
  (h.map Prod.fst).Nodup ∧ h.length < 2 ^ 64 ∧
    ∀ p ∈ h, (strBytes p.1).length < 2 ^ 64 ∧ hvalWF p.2

instance : DecidablePred HeaderWF := fun h => by
  unfold HeaderWF; infer_instance

/-- The binary message delivering the response `(rid, header, payload)`. -/
def respFrame (r : Nat × Header × List Nat) : WSMsg :=
  .binary (encodeFrame r.2.1 r.2.2)

/-- A well-formed delivered response: a well-formed `ACK` header carrying
the response's `rid`, inside a frame within the size bound. -/
def GoodResp (r : Nat × Header × List Nat) : Prop :=
  HeaderWF r.2.1 ∧ hget r.2.1 "op" = some (.str "ACK") ∧
    hget r.2.1 "rid" = some (.int r.1) ∧
    (encodeFrame r.2.1 r.2.2).length ≤ MAX_WS_MESSAGE_SIZE

instance : DecidablePred GoodResp := fun r => by
  unfold GoodResp; infer_instance

instance {ε α : Type} [DecidableEq ε] [DecidableEq α] : DecidableEq (Except ε α) :=
  fun a b =>
    match a, b with
    | .error e, .error f => decidable_of_iff (e = f) (by simp)
    | .ok x, .ok y => decidable_of_iff (x = y) (by simp)
    | .error _, .ok _ => isFalse (by simp)
    | .ok _, .error _ => isFalse (by simp)

/-! ## Codec round-trip lemmas -/

theorem decodeHead_encodeHead (major n : Nat) (r : List Nat) (hn : n < 2 ^ 64) :
    decodeHead (encodeHead major n ++ r) = some (major, n, r) := by
  have hn' : n < 18446744073709551616 := by simpa using hn
  unfold encodeHead
  by_cases h1 : n < 24
  · have e1 : (32 * major + n) % 32 = n := by omega
    have e2 : (32 * major + n) / 32 = major := by omega
    simp [h1, decodeHead, e1, e2]
  · by_cases h2 : n < 256
    · have e1 : (32 * major + 24) % 32 = 24 := by omega
      have e2 : (32 * major + 24) / 32 = major := by omega
      simp [h1, h2, decodeHead, e1, e2]
    · by_cases h3 : n < 65536
      · have e1 : (32 * major + 25) % 32 = 25 := by omega
        have e2 : (32 * major + 25) / 32 = major := by omega
        simp [h1, h2, h3, decodeHead, e1, e2]
        omega
      · by_cases h4 : n < 4294967296
        · have e1 : (32 * major + 26) % 32 = 26 := by omega
          have e2 : (32 * major + 26) / 32 = major := by omega
          simp [h1, h2, h3, h4, decodeHead, e1, e2]
          omega
        · have e1 : (32 * major + 27) % 32 = 27 := by omega
          have e2 : (32 * major + 27) / 32 = major := by omega
          simp [h1, h2, h3, h4, decodeHead, e1, e2]
          omega

theorem strBytes_roundtrip (s : String) :
    (strBytes s).map Char.ofNat = s.data := by
  simp only [strBytes, List.map_map]
  exact List.map_congr_left (fun c _ => Char.ofNat_toNat c) |>.trans (List.map_id _)

theorem decodeHVal_encodeHVal (v : HVal) (r : List Nat) (hv : hvalWF v) :
    decodeHVal (encodeHVal v ++ r) = some (v, r) := by
  cases v with
  | int n =>
    simp only [encodeHVal, decodeHVal, decodeHead_encodeHead 0 n r hv]
  | str s =>
    have hlen : (strBytes s).length < 2 ^ 64 := hv
    simp only [encodeHVal, encodeStr, List.append_assoc, decodeHVal,
      decodeHead_encodeHead 3 (strBytes s).length (strBytes s ++ r) hlen]
    rw [if_pos (by simp)]
    rw [List.take_left, List.drop_left, strBytes_roundtrip]
  | bool b =>
    cases b <;> simp [encodeHVal, decodeHVal, decodeHead]

theorem decodePairs_encodePairs (h : Header) (r : List Nat)
    (hwf : ∀ p ∈ h, (strBytes p.1).length < 2 ^ 64 ∧ hvalWF p.2) :
    decodePairs h.length (encodePairs h ++ r) = some (h, r) := by
  induction h generalizing r with
  | nil => simp [decodePairs, encodePairs]
  | cons p t ih =>
    obtain ⟨k, v⟩ := p
    have hk : hvalWF (.str k) := (hwf (k, v) (by simp)).1
    have hv : hvalWF v := (hwf (k, v) (by simp)).2
    have hkey : decodeHVal (encodeStr k ++ (encodeHVal v ++ (encodePairs t ++ r)))
        = some (.str k, encodeHVal v ++ (encodePairs t ++ r)) :=
      decodeHVal_encodeHVal (.str k) _ hk
    simp only [encodePairs, List.length_cons, decodePairs, List.append_assoc, hkey,
      decodeHVal_encodeHVal v _ hv,
      ih r (fun q hq => hwf q (List.mem_cons_of_mem _ hq))]

theorem cborLoads_cborDumps (h : Header) (hwf : HeaderWF h) :
    cborLoads (cborDumps h) = some h := by
  obtain ⟨-, hlen, hvals⟩ := hwf
  unfold cborDumps cborLoads
  rw [decodeHead_encodeHead 5 h.length (encodePairs h) hlen]
  have := decodePairs_encodePairs h []
    (fun p hp => ⟨(hvals p hp).1, (hvals p hp).2⟩)
  rw [List.append_nil] at this
  simp [this]

theorem unpackUInt32_packUInt32 (n : Nat) (rest : List Nat) (hn : n < 2 ^ 32) :
    unpackUInt32 (packUInt32 n ++ rest) = n := by
  simp only [packUInt32, List.cons_append, List.nil_append, unpackUInt32]
  omega

theorem length_packUInt32 (n : Nat) : (packUInt32 n).length = 4 := rfl

theorem length_encodeFrame (h : Header) (p : List Nat) :
    (encodeFrame h p).length = 4 + (cborDumps h).length + p.length := by
  simp [encodeFrame, length_packUInt32]
  omega

/-- Frame round trip: `_unpack` applied to the buffer built by `send`
recovers the header map and the payload unchanged, for a well-formed
`ACK` header and a frame within the size bound. -/
theorem unpack_encodeFrame (h : Header) (p : List Nat) (hwf : HeaderWF h)
    (hop : hget h "op" = some (.str "ACK"))
    (hsz : (encodeFrame h p).length ≤ MAX_WS_MESSAGE_SIZE) :
    unpack (encodeFrame h p) = .ok (h, p) := by
  have hlen := length_encodeFrame h p
  have hmax : MAX_WS_MESSAGE_SIZE < 2 ^ 32 := by decide
  have hhl : (cborDumps h).length + 4 < 2 ^ 32 := by omega
  unfold unpack
  rw [if_neg (by omega)]
  rw [if_neg (by omega)]
  have hpref : unpackUInt32 (encodeFrame h p) = (cborDumps h).length + 4 := by
    unfold encodeFrame
    rw [List.append_assoc, unpackUInt32_packUInt32 _ _ hhl]
  simp only [hpref]
  have hdrop4 : (encodeFrame h p).drop 4 = cborDumps h ++ p := by
    unfold encodeFrame
    rw [List.append_assoc]
    exact List.drop_left' rfl
  have htake : ((encodeFrame h p).drop 4).take ((cborDumps h).length + 4 - 4)
      = cborDumps h := by
    rw [hdrop4]
    simp only [Nat.add_sub_cancel]
    exact List.take_left _ _
  rw [htake]
  simp only [cborLoads_cborDumps h hwf, hop]
  have : pyEq (.str "ACK") (.str "ACK") = true := rfl
  rw [this, if_pos rfl]
  have hdropH : (encodeFrame h p).drop ((cborDumps h).length + 4) = p := by
    unfold encodeFrame
    exact List.drop_left' (by simp [length_packUInt32]; omega)
  rw [hdropH]

/-- `_unpack` raises "Too short message" exactly for buffers below 4 bytes:
the length test comes first, and no other branch produces that error. -/
theorem unpack_tooShort_iff (resp : List Nat) :
    unpack resp = .error .tooShort ↔ resp.length < 4 := by
  constructor
  · intro h
    by_contra hlen
    unfold unpack at h
    rw [if_neg hlen] at h
    by_cases h2 : resp.length > MAX_WS_MESSAGE_SIZE
    · rw [if_pos h2] at h; simp at h
    · rw [if_neg h2] at h
      dsimp only at h
      repeat' split at h
      all_goals simp_all
  · intro h; unfold unpack; rw [if_pos h]

/-- `_unpack` raises "Too large message" for every buffer longer than
`MAX_WS_MESSAGE_SIZE`. -/
theorem unpack_tooLarge (resp : List Nat)
    (h : MAX_WS_MESSAGE_SIZE < resp.length) :
    unpack resp = .error .tooLarge := by
  have h4 : ¬ resp.length < 4 := by
    simp [MAX_WS_MESSAGE_SIZE, MAX_WS_READ_SIZE] at h; omega
  unfold unpack
  rw [if_neg h4, if_pos h]

/-! ## Correlator lemmas -/

theorem popKey_none_of_not_mem (m : List (Nat × Handler)) (k : Nat)
    (h : k ∉ m.map Prod.fst) : popKey m k = none := by
  induction m with
  | nil => rfl
  | cons p t ih =>
    obtain ⟨k', v⟩ := p
    simp only [List.map_cons, List.mem_cons, not_or] at h
    obtain ⟨h1, h2⟩ := h
    simp only [popKey]
    rw [if_neg (fun hh => h1 hh.symm), ih h2]

theorem popKey_mem (m : List (Nat × Handler)) (k : Nat)
    (hmem : k ∈ m.map Prod.fst) :
    ∃ f m', popKey m k = some (f, m') ∧ (k, f) ∈ m ∧
      (∀ q ∈ m', q ∈ m) ∧ m'.map Prod.fst = (m.map Prod.fst).erase k := by
  induction m with
  | nil => simp at hmem
  | cons p t ih =>
    obtain ⟨k', v⟩ := p
    by_cases h : k' = k
    · subst h
      refine ⟨v, t, ?_, by simp, fun q hq => List.mem_cons_of_mem _ hq, ?_⟩
      · simp [popKey]
      · simp
    · have hmem' : k ∈ t.map Prod.fst := by
        simp only [List.map_cons, List.mem_cons] at hmem
        rcases hmem with h1 | h1
        · exact absurd h1.symm h
        · exact h1
      obtain ⟨f, t', hpop, hin, hsub, hkeys⟩ := ih hmem'
      refine ⟨f, (k', v) :: t', ?_, List.mem_cons_of_mem _ hin, ?_, ?_⟩
      · simp only [popKey]
        rw [if_neg h, hpop]
      · intro q hq
        rcases List.mem_cons.mp hq with rfl | hq'
        · exact List.mem_cons_self _ _
        · exact List.mem_cons_of_mem _ (hsub q hq')
      · simp only [List.map_cons, hkeys]
        rw [List.erase_cons_tail]
        simp [h]

/-! ## Claim C1: request/response correlation -/

/-- Static batch: a pending map with distinct ids whose handlers register
nothing further, responses delivered in an arbitrary permutation.  The
dispatch trace equals the delivered list, the map drains to empty, and the
loop breaks exactly at the last frame. -/
theorem runLoop_static_perm (perm : List (Nat × Header × List Nat))
    (pend : List (Nat × Handler)) (extra : List WSMsg)
    (hkeys : (pend.map Prod.fst).Perm (perm.map (fun r => r.1)))
    (hnodup : (pend.map Prod.fst).Nodup)
    (hstatic : ∀ q ∈ pend, ∀ hh dd, (q.2).run hh dd = [])
    (hgood : ∀ r ∈ perm, GoodResp r)
    (hne : perm ≠ []) :
    runLoop (perm.map respFrame ++ extra) pend = .ok (perm, [], extra) := by
  induction perm generalizing pend with
  | nil => exact absurd rfl hne
  | cons r perm' ih =>
    obtain ⟨hwf, hop, hrid, hsz⟩ := hgood r (List.mem_cons_self _ _)
    have hframe : unpack (encodeFrame r.2.1 r.2.2) = .ok (r.2.1, r.2.2) :=
      unpack_encodeFrame _ _ hwf hop hsz
    have hmemk : r.1 ∈ pend.map Prod.fst := by
      apply hkeys.mem_iff.mpr
      simp
    obtain ⟨f, pend', hpop, hin, hsub, hkeys'⟩ := popKey_mem pend r.1 hmemk
    have hrun : f.run r.2.1 r.2.2 = [] := hstatic (r.1, f) hin r.2.1 r.2.2
    have hkeys'' : (pend'.map Prod.fst).Perm (perm'.map (fun r => r.1)) := by
      rw [hkeys']
      have h1 : ((pend.map Prod.fst).erase r.1).Perm
          ((r.1 :: perm'.map (fun r => r.1)).erase r.1) := by
        apply List.Perm.erase
        simpa using hkeys
      simpa using h1
    have hnodup' : (pend'.map Prod.fst).Nodup := by
      rw [hkeys']; exact hnodup.erase _
    simp only [List.map_cons, List.cons_append, runLoop, respFrame, hframe, hrid,
      ridToKey, hpop, hrun, insertAll]
    by_cases hp' : perm' = []
    · subst hp'
      have hemp : pend' = [] := by
        have h0 : (pend'.map Prod.fst).Perm ([] : List Nat) := by
          simpa using hkeys''
        exact List.map_eq_nil_iff.mp h0.eq_nil
      simp [hemp]
    · have hpne : pend' ≠ [] := by
        intro hh
        rw [hh] at hkeys''
        simp only [List.map_nil, List.nil_perm, List.map_eq_nil_iff] at hkeys''
        exact hp' hkeys''
      have hie : pend'.isEmpty = false := by
        cases pend' with
        | nil => exact absurd rfl hpne
        | cons a t => rfl
      rw [hie]
      simp only [Bool.false_eq_true, if_false, List.append_eq]
      rw [ih pend' hkeys'' hnodup' (fun q hq => hstatic q (hsub q hq))
        (fun q hq => hgood q (List.mem_cons_of_mem _ hq)) hp']

/-- A feasible delivery schedule that exactly drains the pending map:
each delivered response finds its handler registered at that moment
(possibly registered by an earlier handler of the same run), and after the
last one the map — including everything registered from inside handlers —
is empty.  This is the claim's premise that all handlers of the transitive
fan-out receive their responses. -/
inductive Drains : List (Nat × Header × List Nat) → List (Nat × Handler) → Prop where
  | done : Drains [] []
  | step (r : Nat × Header × List Nat) (resps : List (Nat × Header × List Nat))
      (pend : List (Nat × Handler)) (f : Handler) (pend' : List (Nat × Handler))
      (hg : GoodResp r)
      (hpop : popKey pend r.1 = some (f, pend'))
      (hrest : Drains resps (insertAll pend' (f.run r.2.1 r.2.2))) :
      Drains (r :: resps) pend

theorem Drains.nil_inv {m : List (Nat × Handler)} (h : Drains [] m) : m = [] := by
  cases h; rfl

theorem Drains.cons_ne {r : Nat × Header × List Nat}
    {rs : List (Nat × Header × List Nat)} {m : List (Nat × Handler)}
    (h : Drains (r :: rs) m) : m ≠ [] := by
  intro hm
  subst hm
  cases h with
  | step _ _ _ f pend' hg hpop hrest => simp [popKey] at hpop

/-- Dynamic batch: as long as the delivery schedule exactly drains the
map — handlers may register further requests from inside a handler, and
those are answered later in the stream — `run()` dispatches every frame to
its own handler, ends with an empty map, and breaks exactly at the last
frame. -/
theorem runLoop_drains :
    ∀ (resps : List (Nat × Header × List Nat)) (pend : List (Nat × Handler))
      (extra : List WSMsg), Drains resps pend → resps ≠ [] →
      runLoop (resps.map respFrame ++ extra) pend = .ok (resps, [], extra) := by
  intro resps
  induction resps with
  | nil => intro pend extra hd hne; exact absurd rfl hne
  | cons r rs ih =>
    intro pend extra hd hne
    cases hd with
    | step _ _ _ f pend' hg hpop hrest =>
      obtain ⟨hwf, hop, hrid, hsz⟩ := hg
      have hframe : unpack (encodeFrame r.2.1 r.2.2) = .ok (r.2.1, r.2.2) :=
        unpack_encodeFrame _ _ hwf hop hsz
      simp only [List.map_cons, List.cons_append, runLoop, respFrame, hframe,
        hrid, ridToKey, hpop]
      by_cases hrs : rs = []
      · subst hrs
        have hm : insertAll pend' (f.run r.2.1 r.2.2) = [] := hrest.nil_inv
        rw [hm]
        simp
      · have hm : (insertAll pend' (f.run r.2.1 r.2.2)).isEmpty = false := by
          have hne' : insertAll pend' (f.run r.2.1 r.2.2) ≠ [] := by
            rcases rs with _ | ⟨r', rs'⟩
            · exact absurd rfl hrs
            · exact hrest.cons_ne
          cases hcase : insertAll pend' (f.run r.2.1 r.2.2) with
          | nil => exact absurd hcase hne'
          | cons a t => rfl
        rw [hm]
        simp only [Bool.false_eq_true, if_false, List.append_eq]
        rw [ih (insertAll pend' (f.run r.2.1 r.2.2)) extra hrest hrs]

/-- **C1** (confirmed), in two parts.  Part 1: for a batch of
`async_request` registrations with distinct request ids, whose handlers
register nothing further, and for *any* permutation `perm` in which their
well-formed responses are delivered, `run()` dispatches each registered
handler exactly once with the header and payload of its own matching
response (the trace equals the delivered list, matched by `rid`), the
final pending map is empty, and the loop breaks exactly at the last
dispatch, leaving any later messages (`extra`) unread.  Part 2: the same
conclusion for a batch whose handlers *do* register further requests from
inside a handler, for every delivery schedule that answers the whole
transitive fan-out (`Drains`): `run()` terminates exactly when all
handlers, including those registered from inside a handler, have been
dispatched and the map is empty. -/
theorem C1_correlation :
    (∀ (perm : List (Nat × Header × List Nat)) (pend : List (Nat × Handler))
       (extra : List WSMsg),
      (pend.map Prod.fst).Perm (perm.map (fun r => r.1)) →
      (pend.map Prod.fst).Nodup →
      (∀ q ∈ pend, ∀ hh dd, (q.2).run hh dd = []) →
      (∀ r ∈ perm, GoodResp r) →
      perm ≠ [] →
      runLoop (perm.map respFrame ++ extra) pend = .ok (perm, [], extra)) ∧
    (∀ (resps : List (Nat × Header × List Nat)) (pend : List (Nat × Handler))
       (extra : List WSMsg),
      Drains resps pend → resps ≠ [] →
      runLoop (resps.map respFrame ++ extra) pend = .ok (resps, [], extra)) :=
  ⟨runLoop_static_perm, runLoop_drains⟩

/-- A two-request batch: ids 0 and 1, handlers that register nothing. -/
def demoPend : List (Nat × Handler) :=
  [(0, .mk fun _ _ => []), (1, .mk fun _ _ => [])]

/-- The two matching responses, delivered in reversed order. -/
def demoPerm : List (Nat × Header × List Nat) :=
  [(1, [("op", HVal.str "ACK"), ("rid", HVal.int 1)], [5]),
   (0, [("op", HVal.str "ACK"), ("rid", HVal.int 0)], [9])]

/-- Request 0 whose handler registers request 1 from inside the handler. -/
def demoPendDyn : List (Nat × Handler) :=
  [(0, .mk fun _ _ => [(1, .mk fun _ _ => [])])]

/-- The responses for the dynamic batch, parent first. -/
def demoRespsDyn : List (Nat × Header × List Nat) :=
  [(0, [("op", HVal.str "ACK"), ("rid", HVal.int 0)], []),
   (1, [("op", HVal.str "ACK"), ("rid", HVal.int 1)], [])]

/-- Witness for C1.  Part 1 at requests 0 and 1 with responses delivered in
reversed order: each handler fires once with its own payload and the loop
stops at the second frame.  Part 2 at a handler registering a further
request from inside the handler, whose response arrives second. -/
theorem C1_witness :
    (demoPend.map Prod.fst).Perm (demoPerm.map (fun r => r.1)) ∧
    (demoPend.map Prod.fst).Nodup ∧
    (∀ r ∈ demoPerm, GoodResp r) ∧
    demoPerm ≠ [] ∧
    runLoop (demoPerm.map respFrame) demoPend = .ok (demoPerm, [], []) ∧
    Drains demoRespsDyn demoPendDyn ∧
    runLoop (demoRespsDyn.map respFrame) demoPendDyn
      = .ok (demoRespsDyn, [], []) := by
  have hdrain : Drains demoRespsDyn demoPendDyn := by
    refine Drains.step _ _ _ (.mk fun _ _ => [(1, .mk fun _ _ => [])]) []
      (by decide) rfl ?_
    refine Drains.step _ _ _ (.mk fun _ _ => []) [] (by decide) rfl ?_
    exact Drains.done
  refine ⟨by decide, by decide, by decide, by decide, ?_, hdrain, ?_⟩
  · have h := C1_correlation.1 demoPerm demoPend []
      (by decide) (by decide)
      (by
        intro q hq hh dd
        have hcase : q = ((0 : Nat), Handler.mk fun _ _ => []) ∨
            q = ((1 : Nat), Handler.mk fun _ _ => []) := by
          simpa [demoPend] using hq
        rcases hcase with rfl | rfl <;> rfl)
      (by decide) (by decide)
    simpa using h
  · have h := C1_correlation.2 demoRespsDyn demoPendDyn [] hdrain (by decide)
    simpa using h

/-! ## Claim C9: unmatched response id -/

/-- **C9** (confirmed): if `run()` receives a well-formed ACK frame whose
`rid` is not a key of the pending map, `self._handlers.pop(rid)` raises
`KeyError`, aborting the loop with an error — the frame is neither
silently ignored nor dispatched to any other request's handler. -/
theorem C9_unmatched_response (d : List Nat) (h : Header) (data : List Nat)
    (rid : Nat) (rest : List WSMsg) (pend : List (Nat × Handler))
    (hu : unpack d = .ok (h, data))
    (hr : hget h "rid" = some (.int rid))
    (hmem : rid ∉ pend.map Prod.fst) :
    runLoop (.binary d :: rest) pend = .error (.popKeyError (.int rid)) := by
  simp only [runLoop, hu, hr, ridToKey, popKey_none_of_not_mem pend rid hmem]

/-- Witness for C9: a frame answering request id 5 while only id 3 is
pending aborts the loop with `KeyError`. -/
theorem C9_witness :
    unpack (encodeFrame [("op", HVal.str "ACK"), ("rid", HVal.int 5)] [])
      = .ok ([("op", HVal.str "ACK"), ("rid", HVal.int 5)], []) ∧
    hget [("op", HVal.str "ACK"), ("rid", HVal.int 5)] "rid" = some (.int 5) ∧
    (5 : Nat) ∉ ([(3, Handler.mk fun _ _ => [])].map
      (Prod.fst (α := Nat) (β := Handler))) ∧
    runLoop [.binary (encodeFrame [("op", HVal.str "ACK"), ("rid", HVal.int 5)] [])]
        [(3, Handler.mk fun _ _ => [])]
      = .error (.popKeyError (.int 5)) :=
  ⟨by decide, by decide, by decide,
    C9_unmatched_response (encodeFrame [("op", HVal.str "ACK"), ("rid", HVal.int 5)] [])
      [("op", HVal.str "ACK"), ("rid", HVal.int 5)] [] 5 []
      [(3, Handler.mk fun _ _ => [])] (by decide) (by decide) (by decide)⟩

/-! ## Claim C2: frame round-trip -/

/-- **C2** (counterexample to the claim as stated). The claim asserts the
round-trip for *every* `(header_map, payload)` pair within the size bounds,
but `_unpack` only returns the pair for frames whose header `op` is `ACK`:
a frame encoding the header `{op: "LIST", rid: 0}` is within bounds yet
decoding raises "Unexpected response" instead of returning the pair. -/
theorem C2_counterexample :
    (encodeFrame [("op", HVal.str "LIST"), ("rid", HVal.int 0)] []).length
        ≤ MAX_WS_MESSAGE_SIZE ∧
    unpack (encodeFrame [("op", HVal.str "LIST"), ("rid", HVal.int 0)] [])
      = .error (.unexpectedResponse [("op", HVal.str "LIST"), ("rid", HVal.int 0)]) := by
  decide

/-- **C2** (amended): for every `(header_map, payload)` pair whose header is
a well-formed dict carrying `op = "ACK"`, decoding the frame produced by
encoding the pair (4-byte big-endian prefix of serialized-header length + 4,
the serialized header, the payload unchanged) returns exactly the same pair,
provided the total frame length is within the size bound. -/
theorem C2_frame_roundtrip (h : Header) (p : List Nat) (hwf : HeaderWF h)
    (hop : hget h "op" = some (.str "ACK"))
    (hsz : (encodeFrame h p).length ≤ MAX_WS_MESSAGE_SIZE) :
    unpack (encodeFrame h p) = .ok (h, p) :=
  unpack_encodeFrame h p hwf hop hsz

/-- Witness for C2 at the header `{op: "ACK", rid: 1}` with payload `[7, 8]`. -/
theorem C2_witness :
    HeaderWF [("op", HVal.str "ACK"), ("rid", HVal.int 1)] ∧
    hget [("op", HVal.str "ACK"), ("rid", HVal.int 1)] "op" = some (.str "ACK") ∧
    unpack (encodeFrame [("op", HVal.str "ACK"), ("rid", HVal.int 1)] [7, 8])
      = .ok ([("op", HVal.str "ACK"), ("rid", HVal.int 1)], [7, 8]) :=
  ⟨by decide, by decide, C2_frame_roundtrip _ _ (by decide) (by decide) (by decide)⟩

/-! ## Claim C6: size checks and oversize rejection -/

/-- **C6** (counterexample to the claim as stated). The claim asserts that any
frame whose *payload* exceeds 16 MiB fails with the "too large" kind, but the
check in `_unpack` bounds the *whole buffer* by
`MAX_WS_MESSAGE_SIZE = 16 MiB + 2^16 + 100`: a frame with a payload of
16 MiB + 1 bytes and a small header is below that bound and decodes
successfully. -/
theorem C6_counterexample :
    MAX_WS_READ_SIZE < (List.replicate (MAX_WS_READ_SIZE + 1) 0).length ∧
    unpack (encodeFrame [("op", HVal.str "ACK")] (List.replicate (MAX_WS_READ_SIZE + 1) 0))
      = .ok ([("op", HVal.str "ACK")], List.replicate (MAX_WS_READ_SIZE + 1) 0) := by
  refine ⟨by rw [List.length_replicate]; omega,
    unpack_encodeFrame _ _ (by decide) (by decide) ?_⟩
  have h8 : (cborDumps [("op", HVal.str "ACK")]).length = 8 := by decide
  rw [length_encodeFrame, h8, List.length_replicate]
  decide

/-- **C6** (amended): decoding fails with the "too short" kind exactly when
the buffer is shorter than 4 bytes, fails with the "too large" kind whenever
the *buffer* exceeds `MAX_WS_MESSAGE_SIZE` (16 MiB data region plus header
slack) — and then never with the "too short" kind — and the two cases close
the connection with the distinct codes `UNSUPPORTED_DATA` and
`MESSAGE_TOO_BIG`. -/
theorem C6_size_checks :
    (∀ resp : List Nat, unpack resp = .error .tooShort ↔ resp.length < 4) ∧
    (∀ resp : List Nat, MAX_WS_MESSAGE_SIZE < resp.length →
      unpack resp = .error .tooLarge) ∧
    closeCodeOf .tooShort = some UNSUPPORTED_DATA ∧
    closeCodeOf .tooLarge = some MESSAGE_TOO_BIG ∧
    UNSUPPORTED_DATA ≠ MESSAGE_TOO_BIG :=
  ⟨unpack_tooShort_iff, unpack_tooLarge, rfl, rfl, by decide⟩

/-! ## Claim C7: sync mismatch detection -/

/-- **C7** (confirmed): `sync_request` returns a `(header, payload)` result
exactly when the received frame unpacks to that pair and the response's
`rid` equals the request id and its `rop` equals the requested op; if either
field differs (or is missing), it fails with an error instead. -/
theorem C7_sync_mismatch (op : String) (reqid : Nat) (resp : List Nat)
    (h : Header) (data : List Nat) :
    syncRequestCheck op reqid resp = .ok (h, data) ↔
      (unpack resp = .ok (h, data) ∧
       (∃ respid, hget h "rid" = some respid ∧ pyEq respid (.int reqid) = true) ∧
       (∃ rop, hget h "rop" = some rop ∧ pyEq rop (.str op) = true)) := by
  constructor
  · intro hok
    unfold syncRequestCheck at hok
    cases hu : unpack resp with
    | error e => simp only [hu] at hok; simp at hok
    | ok pr =>
      obtain ⟨h', data'⟩ := pr
      simp only [hu] at hok
      cases hrop : hget h' "rop" with
      | none => simp only [hrop] at hok; simp at hok
      | some rop =>
        simp only [hrop] at hok
        cases hrid : hget h' "rid" with
        | none => simp only [hrid] at hok; simp at hok
        | some respid =>
          simp only [hrid] at hok
          by_cases hp1 : pyEq respid (.int reqid) = true
          · by_cases hp2 : pyEq rop (.str op) = true
            · simp only [hp1, hp2, not_true, if_neg, ite_false] at hok
              simp at hok
              obtain ⟨hh, hd⟩ := hok
              subst hh; subst hd
              exact ⟨rfl, ⟨respid, hrid, hp1⟩, ⟨rop, hrop, hp2⟩⟩
            · simp [hp1, hp2] at hok
          · simp [hp1] at hok
  · rintro ⟨hu, ⟨respid, hrid, hp1⟩, ⟨rop, hrop, hp2⟩⟩
    unfold syncRequestCheck
    rw [hu]
    simp only [hrop, hrid]
    simp [hp1, hp2]

/-! ## Claim C3: upload chunking -/

/-- The WRITE-issuing loop of `create_handler` inside
`Storage._send_create_request` (lines 446-467): read up to `B` bytes from
the stream (the source fixes `B = WS_READ_SIZE`), stop on an empty chunk,
otherwise issue one WRITE request carrying `{"offset": pos}` with the chunk
as payload and advance `pos` by the chunk length.  Returns the
`(offset, payload)` pairs of the issued WRITE requests in order. -/
def chunkWrites (content : List Nat) (B pos : Nat) : List (Nat × List Nat) :=
  if h : content.take B = [] then []
  else
    (pos, content.take B) ::
      chunkWrites (content.drop B) B (pos + (content.take B).length)
termination_by content.length
decreasing_by
  simp only [List.length_drop]
  have h2 : content ≠ [] ∧ B ≠ 0 := by
    constructor
    · intro hc; exact h (by simp [hc])
    · intro hb; exact h (by simp [hb])
  have h3 : 0 < content.length := List.length_pos.mpr h2.1
  omega

theorem chunkWrites_nil (B pos : Nat) : chunkWrites [] B pos = [] := by
  rw [chunkWrites]; simp

theorem chunkWrites_cons (content : List Nat) (B pos : Nat) (hB : 0 < B)
    (hc : content ≠ []) :
    chunkWrites content B pos
      = (pos, content.take B)
          :: chunkWrites (content.drop B) B (pos + min B content.length) := by
  rw [chunkWrites]
  rw [dif_neg (by simp [hc]; omega)]
  rw [List.length_take]

/-- The issued payload lengths sum to exactly the content length. -/
theorem chunkWrites_sum (B : Nat) (hB : 0 < B) :
    ∀ (n : Nat) (content : List Nat), content.length ≤ n → ∀ pos,
      ((chunkWrites content B pos).map (fun c => c.2.length)).sum
        = content.length := by
  intro n
  induction n with
  | zero =>
    intro content hlen pos
    have hc : content = [] := List.length_eq_zero.mp (by omega)
    simp [hc, chunkWrites_nil]
  | succ n ih =>
    intro content hlen pos
    by_cases hc : content = []
    · simp [hc, chunkWrites_nil]
    · have hpos : 0 < content.length := List.length_pos.mpr hc
      rw [chunkWrites_cons content B pos hB hc]
      simp only [List.map_cons, List.sum_cons, List.length_take]
      have hlt : (content.drop B).length ≤ n := by
        simp only [List.length_drop]; omega
      rw [ih (content.drop B) hlt (pos + min B content.length)]
      simp only [List.length_drop]
      omega

/-- The number of issued WRITE requests is `⌈S / B⌉`. -/
theorem chunkWrites_count (B : Nat) (hB : 0 < B) :
    ∀ (n : Nat) (content : List Nat), content.length ≤ n → ∀ pos,
      (chunkWrites content B pos).length
        = (content.length + B - 1) / B := by
  intro n
  induction n with
  | zero =>
    intro content hlen pos
    have hc : content = [] := List.length_eq_zero.mp (by omega)
    rw [hc, chunkWrites_nil]
    simp only [List.length_nil]
    rw [Nat.div_eq_of_lt (by omega)]
  | succ n ih =>
    intro content hlen pos
    by_cases hc : content = []
    · rw [hc, chunkWrites_nil]
      simp only [List.length_nil]
      rw [Nat.div_eq_of_lt (by omega)]
    · have hpos : 0 < content.length := List.length_pos.mpr hc
      rw [chunkWrites_cons content B pos hB hc]
      simp only [List.length_cons]
      have hlt : (content.drop B).length ≤ n := by
        simp only [List.length_drop]; omega
      rw [ih (content.drop B) hlt (pos + min B content.length)]
      simp only [List.length_drop]
      have heq : content.length + B - 1 = (content.length - 1) + B := by omega
      rw [heq, Nat.add_div_right _ hB]
      have hinner : (content.length - B + B - 1) / B = (content.length - 1) / B := by
        by_cases hbig : B < content.length
        · have : content.length - B + B - 1 = content.length - 1 := by omega
          rw [this]
        · have h1 : content.length - B = 0 := by omega
          rw [h1]
          rw [Nat.div_eq_of_lt (by omega), Nat.div_eq_of_lt (by omega)]
      rw [hinner]

/-- The issued offsets are exactly `pos, pos + B, pos + 2B, ...`. -/
theorem chunkWrites_offsets (B : Nat) (hB : 0 < B) :
    ∀ (n : Nat) (content : List Nat), content.length ≤ n → ∀ pos,
      (chunkWrites content B pos).map Prod.fst
        = (List.range (chunkWrites content B pos).length).map
            (fun i => pos + i * B) := by
  intro n
  induction n with
  | zero =>
    intro content hlen pos
    have hc : content = [] := List.length_eq_zero.mp (by omega)
    simp [hc, chunkWrites_nil]
  | succ n ih =>
    intro content hlen pos
    by_cases hc : content = []
    · simp [hc, chunkWrites_nil]
    · have hpos : 0 < content.length := List.length_pos.mpr hc
      rw [chunkWrites_cons content B pos hB hc]
      simp only [List.map_cons, List.length_cons]
      have hlt : (content.drop B).length ≤ n := by
        simp only [List.length_drop]; omega
      rw [ih (content.drop B) hlt (pos + min B content.length)]
      rw [List.range_succ_eq_map]
      simp only [List.map_cons, List.map_map, Nat.zero_mul, Nat.add_zero]
      congr 1
      by_cases hbig : B ≤ content.length
      · have hmin : min B content.length = B := by omega
        rw [hmin]
        apply List.map_congr_left
        intro i _
        simp only [Function.comp_apply, Nat.succ_eq_add_one]
        ring
      · have hdrop : content.drop B = [] := by
          apply List.eq_nil_of_length_eq_zero
          simp only [List.length_drop]; omega
        rw [hdrop, chunkWrites_nil]
        simp

/-- **C3** (confirmed): for a local file with byte content `content`
uploaded with block size `B > 0`, the `create_handler` loop issues exactly
`⌈S / B⌉` WRITE requests (`S` the file size), their offsets are exactly
`0, B, 2B, ...` in increasing order, and their payload lengths sum to `S`. -/
theorem C3_upload_chunking (content : List Nat) (B : Nat) (hB : 0 < B) :
    (chunkWrites content B 0).length = (content.length + B - 1) / B ∧
    (chunkWrites content B 0).map Prod.fst
      = (List.range (chunkWrites content B 0).length).map (fun i => i * B) ∧
    ((chunkWrites content B 0).map (fun c => c.2.length)).sum
      = content.length := by
  refine ⟨chunkWrites_count B hB content.length content le_rfl 0, ?_,
    chunkWrites_sum B hB content.length content le_rfl 0⟩
  rw [chunkWrites_offsets B hB content.length content le_rfl 0]
  simp

/-- Witness for C3: a 7-byte file with block size 3 gives WRITEs at
offsets 0, 3, 6 with payload lengths 3 + 3 + 1 = 7. -/
theorem C3_witness :
    (0 : Nat) < 3 ∧
    ((chunkWrites [1, 2, 3, 4, 5, 6, 7] 3 0).length = (7 + 3 - 1) / 3 ∧
     (chunkWrites [1, 2, 3, 4, 5, 6, 7] 3 0).map Prod.fst
       = (List.range (chunkWrites [1, 2, 3, 4, 5, 6, 7] 3 0).length).map
           (fun i => i * 3) ∧
     ((chunkWrites [1, 2, 3, 4, 5, 6, 7] 3 0).map (fun c => c.2.length)).sum = 7) :=
  ⟨by decide, by
    have h := C3_upload_chunking [1, 2, 3, 4, 5, 6, 7] 3 (by decide)
    simpa using h⟩

/-! ## Claim C4: directory walk ordering -/

/-- The kind of a local directory entry, as classified by
`child.is_file()` / `child.is_dir()` in `mkdir_handler`. -/
inductive EntryKind where
  | file
  | dir
  | other
  deriving DecidableEq, Repr

/-- One entry of `src_path.iterdir()`. -/
structure LocalEntry where
  name : String
  kind : EntryKind
  deriving DecidableEq, Repr

/-- `item.is_dir()` as the boolean component of the sort key. -/
def LocalEntry.isDirB (e : LocalEntry) : Bool := e.kind == EntryKind.dir

/-- The sort key `(item.is_dir(), item.name)` of line 509. -/
def sortKey (e : LocalEntry) : Bool × String := (e.isDirB, e.name)

/-- Python `<` on strings: lexicographic by Unicode code point. -/
def strLtB : List Char → List Char → Bool
  | [], [] => false
  | [], _ :: _ => true
  | _ :: _, [] => false
  | a :: as, b :: bs =>
    if a.toNat < b.toNat then true
    else if b.toNat < a.toNat then false
    else strLtB as bs

/-- Python `<` on `(bool, str)` keys: `False < True`, strings compared
lexicographically by code point. -/
def keyLt (a b : Bool × String) : Bool :=
  (!a.1 && b.1) || (a.1 == b.1 && strLtB a.2.data b.2.data)

/-- Stable insertion: place `x` before the first element that does not
precede it, so earlier input elements stay before equal-key later ones —
the guarantee of Python's stable `sorted`. -/
def sortedInsert (x : LocalEntry) : List LocalEntry → List LocalEntry
  | [] => [x]
  | y :: t =>
    if keyLt (sortKey y) (sortKey x) then y :: sortedInsert x t
    else x :: y :: t

/-- `sorted(src_path.iterdir(), key=lambda item: (item.is_dir(), item.name))`
(line 508): a stable ascending sort on the `(is_dir, name)` key. -/
def pySorted : List LocalEntry → List LocalEntry
  | [] => []
  | x :: t => sortedInsert x (pySorted t)

/-- `_join_path` (lines 697-700). -/
def joinPath (basedir name : String) : String :=
  if basedir ≠ "" ∧ name ≠ "" then basedir ++ "/" ++ name
  else if basedir ≠ "" then basedir
  else name

/-- The request issued for one child of the directory walk. -/
inductive ChildReq where
  | create (path : String)
  | mkdirs (path : String)
  | fail (path : String)
  deriving DecidableEq, Repr

/-- `mkdir_handler` (`Storage._send_mkdir_request`, lines 506-532): sort the
`iterdir` listing by `(is_dir, name)`, then per child in order issue a
CREATE-file request (`_send_create_request`), a recursive MKDIRS request
(`_send_mkdir_request`), or report a `Fail` progress event for an entry
that is neither file nor directory. -/
def mkdirHandlerChildRequests (dstPath : String) (children : List LocalEntry) :
    List ChildReq :=
  (pySorted children).map (fun c =>
    match c.kind with
    | .file => .create (joinPath dstPath c.name)
    | .dir => .mkdirs (joinPath dstPath c.name)
    | .other => .fail (joinPath dstPath c.name))

/-- **C4** (counterexample to the claim as stated). The sort key
`(is_dir, name)` sorts `False` before `True`, so *files* come first: for a
directory holding files `b.txt`, `a.txt` and subdirectory `c`, the handler
issues `a.txt`, `b.txt`, then `c` — not `c` first as claimed. -/
theorem C4_counterexample :
    mkdirHandlerChildRequests ""
        [⟨"b.txt", .file⟩, ⟨"a.txt", .file⟩, ⟨"c", .dir⟩]
      = [.create "a.txt", .create "b.txt", .mkdirs "c"] ∧
    mkdirHandlerChildRequests ""
        [⟨"b.txt", .file⟩, ⟨"a.txt", .file⟩, ⟨"c", .dir⟩]
      ≠ [.mkdirs "c", .create "a.txt", .create "b.txt"] := by
  decide

/-- **C4** (amended): uploading a directory containing files `b.txt` and
`a.txt` and subdirectory `c` issues the child requests in the order
`a.txt`, `b.txt`, then `c` — files first in lexicographic name order, then
directories. -/
theorem C4_walk_ordering :
    mkdirHandlerChildRequests ""
        [⟨"b.txt", .file⟩, ⟨"a.txt", .file⟩, ⟨"c", .dir⟩]
      = [.create "a.txt", .create "b.txt", .mkdirs "c"] := by
  decide

/-! ## Claim C10: download progress during READ issuance -/

/-- A progress event sent to the sink (`StorageProgressStart` /
`StorageProgressStep` / `StorageProgressComplete`). -/
inductive PEvent where
  | start (size : Nat)
  | step (current size : Nat)
  | complete (size : Nat)
  deriving DecidableEq, Repr

/-- One observable action of `_send_read_requests`: truncating the
destination file, emitting a progress event, registering one READ request,
or writing response bytes into the file — the last is performed only by a
registered `read_handler`, later, inside `run()`. -/
inductive RAction where
  | truncateFile
  | progress (e : PEvent)
  | readRequest (offset size : Nat)
  | fileWrite (offset : Nat)
  deriving DecidableEq, Repr

/-- `read_handler` (lines 577-586): seek to the chunk's offset and write
the response payload there. -/
def readHandlerActions (offset : Nat) : List RAction := [.fileWrite offset]

/-- The `for pos in range(0, size, WS_READ_SIZE)` loop of
`_send_read_requests` (lines 591-600), with the block size `B` as a
parameter: per block, register one READ request with
`{"offset": pos, "size": min(B, size - pos)}` and emit a Step event at
`pos + chunk_size`.  (`range` with step 0 would raise `ValueError`; the
source always passes `WS_READ_SIZE > 0`.) -/
def readLoop (size B pos : Nat) : List RAction :=
  if hB : B = 0 then []
  else if hlt : pos < size then
    .readRequest pos (min B (size - pos))
      :: .progress (.step (pos + min B (size - pos)) size)
      :: readLoop size B (pos + B)
  else []
termination_by size - pos
decreasing_by omega

/-- `Storage._send_read_requests` (lines 564-601): truncate/create the
destination file, emit Start, register all READ requests while emitting
Step events, then emit Complete — all before `run()` dispatches any READ
response, hence before any `fileWrite` happens. -/
def sendReadRequestsTrace (size B : Nat) : List RAction :=
  .truncateFile :: .progress (.start size)
    :: (readLoop size B 0 ++ [.progress (.complete size)])

/-- The `current` value of a Step event, if the action is one. -/
def stepCurrent : RAction → Option Nat
  | .progress (.step c _) => some c
  | _ => none

theorem lt_ceil_iff (S B j : Nat) (hB : 0 < B) :
    j < (S + B - 1) / B ↔ j * B < S := by
  rw [Nat.lt_iff_add_one_le, Nat.le_div_iff_mul_le hB]
  have h1 : (j + 1) * B = j * B + B := by ring
  omega

/-- Closed form of the READ loop from block index `j` on. -/
theorem readLoop_eq (S B : Nat) (hB : 0 < B) :
    ∀ (k j : Nat), (S + B - 1) / B - j ≤ k →
      readLoop S B (j * B)
        = (List.range' j ((S + B - 1) / B - j)).flatMap
            (fun i => [.readRequest (i * B) (min B (S - i * B)),
                       .progress (.step (min ((i + 1) * B) S) S)]) := by
  intro k
  induction k with
  | zero =>
    intro j hj
    have hn : (S + B - 1) / B ≤ j := by omega
    have hge : ¬ j * B < S := by
      rw [← lt_ceil_iff S B j hB]; omega
    rw [readLoop, dif_neg (by omega)]
    simp only [hge, dite_false]
    have h0 : (S + B - 1) / B - j = 0 := by omega
    rw [h0]
    rfl
  | succ k ih =>
    intro j hj
    by_cases hlt : j * B < S
    · have hjn : j < (S + B - 1) / B := (lt_ceil_iff S B j hB).mpr hlt
      rw [readLoop, dif_neg (by omega)]
      simp only [hlt, dite_true]
      have hpos : j * B + B = (j + 1) * B := by ring
      rw [hpos, ih (j + 1) (by omega)]
      have hrange : (S + B - 1) / B - j = ((S + B - 1) / B - (j + 1)) + 1 := by
        omega
      rw [hrange, List.range'_succ]
      simp only [List.flatMap_cons]
      have hcur : j * B + min B (S - j * B) = min ((j + 1) * B) S := by
        omega
      rw [hcur]
      simp
    · have hn : (S + B - 1) / B ≤ j := by
        by_contra hcon
        exact hlt ((lt_ceil_iff S B j hB).mp (by omega))
      rw [readLoop, dif_neg (by omega)]
      simp only [hlt, dite_false]
      have h0 : (S + B - 1) / B - j = 0 := by omega
      rw [h0]
      rfl

/-- **C10** (confirmed): for a download of size `S > 0` with block size
`B > 0`, the issuance pass `_send_read_requests` emits Start, then — per
block `i` of the `⌈S / B⌉` blocks — one READ request at offset `i·B`
followed by a Step event at `min((i+1)·B, S)`, then Complete; the Step
events number exactly `⌈S / B⌉` and their `current` values are strictly
increasing, and no byte of file content is written during issuance (all
`fileWrite`s live in the `read_handler`s, which only run later inside
`run()` when responses arrive). -/
theorem C10_download_progress (S B : Nat) (hB : 0 < B) (hS : 0 < S) :
    sendReadRequestsTrace S B
      = .truncateFile :: .progress (.start S)
          :: ((List.range ((S + B - 1) / B)).flatMap
                (fun i => [.readRequest (i * B) (min B (S - i * B)),
                           .progress (.step (min ((i + 1) * B) S) S)])
              ++ [.progress (.complete S)]) ∧
    ((sendReadRequestsTrace S B).filterMap stepCurrent).length
      = (S + B - 1) / B ∧
    List.Pairwise (· < ·) ((sendReadRequestsTrace S B).filterMap stepCurrent) ∧
    (∀ off, RAction.fileWrite off ∉ sendReadRequestsTrace S B) := by
  have hloop : readLoop S B 0
      = (List.range ((S + B - 1) / B)).flatMap
          (fun i => [.readRequest (i * B) (min B (S - i * B)),
                     .progress (.step (min ((i + 1) * B) S) S)]) := by
    have h := readLoop_eq S B hB ((S + B - 1) / B) 0 (by simp)
    simpa [List.range_eq_range'] using h
  have hsteps : (sendReadRequestsTrace S B).filterMap stepCurrent
      = (List.range ((S + B - 1) / B)).map (fun i => min ((i + 1) * B) S) := by
    simp only [sendReadRequestsTrace, hloop, List.filterMap_cons, stepCurrent,
      List.filterMap_append, List.filterMap_flatMap]
    simp [stepCurrent, List.map_eq_flatMap]
  refine ⟨by simp [sendReadRequestsTrace, hloop], ?_, ?_, ?_⟩
  · rw [hsteps]; simp
  · rw [hsteps, List.pairwise_map]
    apply (List.pairwise_lt_range _).imp_of_mem
    intro a b ha hb hab
    have hbn : b < (S + B - 1) / B := List.mem_range.mp hb
    have hbS : b * B < S := (lt_ceil_iff S B b hB).mp hbn
    have h1 : (a + 1) * B ≤ b * B := Nat.mul_le_mul_right B (by omega)
    have h2 : (b + 1) * B = b * B + B := by ring
    omega
  · intro off
    rw [(by simp [sendReadRequestsTrace, hloop] :
      sendReadRequestsTrace S B
        = .truncateFile :: .progress (.start S)
            :: ((List.range ((S + B - 1) / B)).flatMap
                  (fun i => [.readRequest (i * B) (min B (S - i * B)),
                             .progress (.step (min ((i + 1) * B) S) S)])
                ++ [.progress (.complete S)]))]
    simp

/-- Witness for C10 at `S = 5`, `B = 2`: blocks `[0,2) [2,4) [4,5)`. -/
theorem C10_witness :
    (0 : Nat) < 2 ∧ (0 : Nat) < 5 ∧
    ((sendReadRequestsTrace 5 2).filterMap stepCurrent).length = (5 + 2 - 1) / 2 ∧
    List.Pairwise (· < ·) ((sendReadRequestsTrace 5 2).filterMap stepCurrent) ∧
    (∀ off, RAction.fileWrite off ∉ sendReadRequestsTrace 5 2) := by
  have h := C10_download_progress 5 2 (by decide) (by decide)
  exact ⟨by decide, by decide, h.2.1, h.2.2.1, h.2.2.2⟩

/-! ## Claim C8: pre-flight checks and network operations -/

/-- A network operation performed by an upload, in order: opening the
websocket, the STAT exchange for the destination's parent, and the
state-modifying CREATE / MKDIRS requests (with the `run()` loop that
drives WRITEs and recursion). -/
inductive NetOp where
  | wsConnect
  | statRequest
  | createRequest
  | mkdirsRequest
  | runLoopOp
  deriving DecidableEq, Repr

/-- The errors raised by the upload entry points. -/
inductive UploadErr where
  | fileNotFound
  | isADirectory
  | notADirectory
  deriving DecidableEq, Repr

/-- `Storage.upload_file` (lines 394-429) up to the point the transfer
starts, as the list of network operations performed and the outcome.
Inputs describe the local source (`src_path.exists()`, `src_path.is_dir()`)
and the destination parent's STAT result over the websocket
(`none` = `FileNotFoundError`, `some isDir` otherwise).  The source checks
run before `_ws_connect`; the parent check is a STAT round-trip on the
already-open websocket, and only afterwards are CREATE/WRITE issued. -/
def uploadFilePreflight (srcExists srcIsDir : Bool) (parentStat : Option Bool) :
    List NetOp × Option UploadErr :=
  if !srcExists then ([], some .fileNotFound)
  else if srcIsDir then ([], some .isADirectory)
  else
    match parentStat with
    | none => ([.wsConnect, .statRequest], some .notADirectory)
    | some false => ([.wsConnect, .statRequest], some .notADirectory)
    | some true => ([.wsConnect, .statRequest, .createRequest, .runLoopOp], none)

/-- `Storage.upload_dir` (lines 474-493): both local pre-flight checks run
before `_ws_connect`; there is no destination check at all — MKDIRS is sent
with `parents=True, exist_ok=True`. -/
def uploadDirPreflight (srcExists srcIsDir : Bool) :
    List NetOp × Option UploadErr :=
  if !srcExists then ([], some .fileNotFound)
  else if !srcIsDir then ([], some .notADirectory)
  else ([.wsConnect, .mkdirsRequest, .runLoopOp], none)

/-- **C8** (counterexample to the claim as stated). The claim places the
destination-parent check ("parent missing or not a directory") before any
network operation, but `upload_file` performs it with a STAT request on the
already-opened websocket: with an existing plain-file source and a missing
remote parent, the failure is raised only after `wsConnect` and
`statRequest` have run. -/
theorem C8_counterexample :
    (uploadFilePreflight true false none).2 = some .notADirectory ∧
    (uploadFilePreflight true false none).1 ≠ [] ∧
    NetOp.wsConnect ∈ (uploadFilePreflight true false none).1 := by
  decide

/-- **C8** (amended): the *source* pre-flight failures (source missing,
source of the wrong type) are raised before any network operation begins,
for both `upload_file` and `upload_dir`; the *destination-parent* failure
of `upload_file` is raised after the connection and a STAT exchange, but
still before any state-modifying CREATE/WRITE/MKDIRS request, so none of
these failures create partial remote state. -/
theorem C8_preflight :
    (∀ d p, uploadFilePreflight false d p = ([], some .fileNotFound)) ∧
    (∀ p, uploadFilePreflight true true p = ([], some .isADirectory)) ∧
    (∀ d, uploadDirPreflight false d = ([], some .fileNotFound)) ∧
    uploadDirPreflight true false = ([], some .notADirectory) ∧
    uploadFilePreflight true false none
      = ([.wsConnect, .statRequest], some .notADirectory) ∧
    uploadFilePreflight true false (some false)
      = ([.wsConnect, .statRequest], some .notADirectory) ∧
    (∀ p, NetOp.createRequest ∉ (uploadFilePreflight true false p).1 ∨
       (uploadFilePreflight true false p).2 = none) := by
  refine ⟨fun d p => rfl, fun p => rfl, fun d => rfl, rfl, rfl, rfl, fun p => ?_⟩
  · cases p with
    | none => exact Or.inl (by decide)
    | some b =>
      cases b
      · exact Or.inl (by decide)
      · exact Or.inr rfl

/-! ## Claim C5: the glob engine

The remote storage tree is a finite value; `ls`/`stats` are the server's
LISTSTATUS/GETFILESTATUS answers over it.  The recursive walks
(`Storage._rlistdir` and the `fnmatch` backtracking matcher) have no
structural recursion measure in the source — the spec itself notes the
`**` walk need not terminate on a cyclic remote tree — so they are
embedded with an explicit step budget (`fuel`); every step consumes fuel,
and each concrete theorem passes a budget larger than the walk needs, so
the embedded functions agree with the source on the scenario. -/

/-- A node of the remote tree, as the server reports it. -/
inductive RNode where
  | file
  | dir (children : List (String × RNode))
  deriving Repr

/-- `FileStatus.is_dir()` of a node. -/
def RNode.isDirB : RNode → Bool
  | .file => false
  | .dir _ => true

/-- Resolve a path (list of segments) under a node: `some` iff the path
exists, mirroring `stats` (GETFILESTATUS), which raises `ResourceNotFound`
for a missing path. -/
def resolve : RNode → List String → Option RNode
  | t, [] => some t
  | .file, _ :: _ => none
  | .dir ch, s :: rest =>
    match List.lookup s ch with
    | some t => resolve t rest
    | none => none

/-- `Storage.ls` (LISTSTATUS): `(FileStatus.path, is_dir)` rows of a
directory, in server order.  The claim's scenario only ever lists existing
directories; a real server errors on anything else, aborting the glob. -/
def lsEntries (t : RNode) (p : List String) : List (String × Bool) :=
  match resolve t p with
  | some (.dir ch) => ch.map (fun c => (c.1, c.2.isDirB))
  | _ => []

/-- `Storage._iterdir` (lines 271-274): the listing, restricted to
directories when `dironly`. -/
def iterdir (t : RNode) (p : List String) (dironly : Bool) : List (String × Bool) :=
  (lsEntries t p).filter (fun e => !dironly || e.2)

/-- `_has_magic` (lines 682-686): the string matches `[*?[]` somewhere. -/
def hasMagicStr (s : String) : Bool :=
  s.data.any (fun c => c == '*' || c == '?' || c == '[')

/-- `_ishidden` (lines 689-690): `name.startswith(".")`. -/
def ishidden (name : String) : Bool :=
  match name.data with
  | c :: _ => c == '.'
  | [] => false

/-- `_isrecursive` (lines 693-694): the pattern is exactly `**`. -/
def isrecursive (pattern : String) : Bool := pattern == "**"

/-- Does `c` fall in a character-class body, with `a-b` ranges, as in the
regex classes produced by `fnmatch.translate`. -/
def inClass (c : Char) : List Char → Bool
  | a :: '-' :: b :: t => (a.toNat ≤ c.toNat && c.toNat ≤ b.toNat) || inClass c t
  | a :: t => (a == c) || inClass c t
  | [] => false

/-- Scan a class body up to the closing `]`; `none` when it never closes. -/
def untilRB : List Char → Option (List Char × List Char)
  | [] => none
  | ']' :: t => some ([], t)
  | c :: t =>
    match untilRB t with
    | some (cls, rest) => some (c :: cls, rest)
    | none => none

/-- Split a `[...]` class as `fnmatch.translate` does: an optional leading
`!` negates, a leading `]` is literal, and the body runs to the next `]`;
with no closing `]` the `[` is a literal character. -/
def splitClass (l : List Char) : Option (Bool × List Char × List Char) :=
  match l with
  | '!' :: l1 =>
    (match l1 with
     | ']' :: t =>
       match untilRB t with
       | some (cls, rest) => some (true, ']' :: cls, rest)
       | none => none
     | _ =>
       match untilRB l1 with
       | some (cls, rest) => some (true, cls, rest)
       | none => none)
  | ']' :: t =>
    (match untilRB t with
     | some (cls, rest) => some (false, ']' :: cls, rest)
     | none => none)
  | _ =>
    match untilRB l with
    | some (cls, rest) => some (false, cls, rest)
    | none => none

/-- The shell-pattern matcher of
`re.compile(fnmatch.translate(pattern)).fullmatch`: `*` matches any
sequence, `?` one character, `[...]`/`[!...]` a (negated) class, other
characters literally; anchored at both ends.  Every step consumes at
least one unit of `pattern.length + name.length`, so the wrapper's budget
makes the fuel case unreachable. -/
def fnMatchF : Nat → List Char → List Char → Bool
  | 0, _, _ => false
  | fuel + 1, p, s =>
    match p, s with
    | [], [] => true
    | [], _ :: _ => false
    | '*' :: pr, s =>
      fnMatchF fuel pr s ||
        (match s with
         | [] => false
         | _ :: sr => fnMatchF fuel ('*' :: pr) sr)
    | '?' :: pr, _ :: sr => fnMatchF fuel pr sr
    | '?' :: _, [] => false
    | '[' :: pr, s =>
      (match splitClass pr with
       | some (neg, cls, rest) =>
         (match s with
          | [] => false
          | c :: sr =>
            (if neg then !(inClass c cls) else inClass c cls)
              && fnMatchF fuel rest sr)
       | none =>
         match s with
         | '[' :: sr => fnMatchF fuel pr sr
         | _ => false)
    | pc :: pr, c :: sr => (pc == c) && fnMatchF fuel pr sr
    | _ :: _, [] => false

/-- `fnmatch.translate` + `fullmatch` on whole strings. -/
def fnmatchMatch (pattern name : String) : Bool :=
  fnMatchF (pattern.data.length + name.data.length + 1) pattern.data name.data

/-- The loop body of `Storage._rlistdir` (lines 276-284), walking the
already-resolved children: apply `_iterdir`'s `dironly` filter, skip
hidden names, yield each surviving child path, and recurse depth-first
into child directories before moving to the next sibling.  One fuel unit
is spent per descent into a subdirectory. -/
def rlistChildrenF (dironly : Bool) : Nat → List (String × RNode) → List String →
    List (List String)
  | 0, _, _ => []
  | _ + 1, [], _ => []
  | fuel + 1, (name, sub) :: t, p =>
    (if dironly && !sub.isDirB then []
     else if ishidden name then []
     else (p ++ [name]) ::
       (match sub with
        | .dir ch => rlistChildrenF dironly fuel ch (p ++ [name])
        | .file => []))
      ++ rlistChildrenF dironly fuel t p

/-- `Storage._rlistdir` from a path. -/
def rlistdirF (rfuel : Nat) (t : RNode) (p : List String) (dironly : Bool) :
    List (List String) :=
  match resolve t p with
  | some (.dir ch) => rlistChildrenF dironly rfuel ch p
  | _ => []

/-- `Storage._glob0` (lines 261-269): probe the literal child with `stats`,
yielding it exactly when it exists. -/
def glob0 (t : RNode) (parent : List String) (basename : String) :
    List (List String) :=
  match resolve t (parent ++ [basename]) with
  | some _ => [parent ++ [basename]]
  | none => []

/-- `Storage._glob1` (lines 251-259): list the parent once, keep entries
whose name matches the translated pattern, excluding hidden names unless
the pattern itself starts with a dot. -/
def glob1 (t : RNode) (parent : List String) (pattern : String)
    (dironly : Bool) : List (List String) :=
  (iterdir t parent dironly).filterMap (fun e =>
    if (ishidden pattern || !ishidden e.1) && fnmatchMatch pattern e.1 then
      some (parent ++ [e.1])
    else none)

/-- `Storage._glob2` (lines 243-249): yield the parent itself, then every
`_rlistdir` descendant. -/
def glob2 (rfuel : Nat) (t : RNode) (parent : List String) (dironly : Bool) :
    List (List String) :=
  parent :: rlistdirF rfuel t parent dironly

/-- `Storage.glob` (lines 227-241): a pattern without magic is yielded
as-is; otherwise resolve the parent pattern recursively (with
`dironly=True`), then apply `_glob0`/`_glob1`/`_glob2` to the final
segment under each resolved parent.  One fuel unit per path segment; the
wrapper passes `path.length + 1`, so fuel never runs out. -/
def globF (t : RNode) (rfuel : Nat) : Nat → List String → Bool →
    List (List String)
  | 0, _, _ => []
  | fuel + 1, path, dironly =>
    if ¬ path.any hasMagicStr then [path]
    else
      match path.getLast? with
      | none => [path]
      | some basename =>
        (globF t rfuel fuel path.dropLast true).flatMap (fun parent =>
          if ¬ hasMagicStr basename then glob0 t parent basename
          else if ¬ isrecursive basename then glob1 t parent basename dironly
          else glob2 rfuel t parent dironly)

/-- `Storage.glob` on a path of segments (`rfuel` bounds the `**` walk). -/
def glob (t : RNode) (rfuel : Nat) (path : List String) (dironly : Bool) :
    List (List String) :=
  globF t rfuel (path.length + 1) path dironly

/-- The remote tree `{a/x.txt, a/b/y.txt, a/.hidden.txt}` of the claim. -/
def demoTree : RNode :=
  .dir [("a", .dir [("x.txt", .file), ("b", .dir [("y.txt", .file)]),
                    (".hidden.txt", .file)])]

/-- **C5** (confirmed): on the tree `{a/x.txt, a/b/y.txt, a/.hidden.txt}`,
pattern `a/**` yields exactly `a, a/x.txt, a/b, a/b/y.txt` — the parent
itself first, then every non-hidden descendant depth-first — and never
`a/.hidden.txt`; pattern `a/*.txt` yields exactly `a/x.txt`, the hidden
entry being excluded because the pattern does not start with a dot. -/
theorem C5_glob :
    glob demoTree 100 ["a", "**"] false
      = [["a"], ["a", "x.txt"], ["a", "b"], ["a", "b", "y.txt"]] ∧
    ["a", ".hidden.txt"] ∉ glob demoTree 100 ["a", "**"] false ∧
    glob demoTree 100 ["a", "*.txt"] false = [["a", "x.txt"]] := by
  decide

/-- Witness for C6: the empty buffer is "too short"; a buffer one byte over
`MAX_WS_MESSAGE_SIZE` is "too large" (and hence not "too short"). -/
theorem C6_witness :
    unpack [] = .error .tooShort ∧
    MAX_WS_MESSAGE_SIZE < (List.replicate (MAX_WS_MESSAGE_SIZE + 1) 0).length ∧
    unpack (List.replicate (MAX_WS_MESSAGE_SIZE + 1) 0) = .error .tooLarge :=
  ⟨(C6_size_checks.1 []).mpr (by decide),
    by rw [List.length_replicate]; omega,
    C6_size_checks.2.1 _ (by rw [List.length_replicate]; omega)⟩

end WSProto
